import Mathlib

/-!
# Schedule-density engine: shallow embedding and verification

This file embeds the schedule-density / overlap-detection core of the
course-scheduling repository and settles the frozen claims about it.  The
embedded code is:

* `ScheduleDensity.compute` and `ScheduleDensity.plot`
  (src/proj/analytics/scheduleDensity.py; the near-identical copy in
  src/src/analytics/scheduleDensity.py has the same body),
* `create_interval_trees` (src/src/excelToDb.py), the older variant whose
  per-token insertion is wrapped in a bare try/except,
* the meeting-pattern normalizations: `traditional_meeting_pattern` /
  `traditionalMeetingPattern` (src/src/excelToDb.py, src/src/app.py), which
  use Python `str.replace`, and the `Series.replace` chain used by
  `readExcelToDB` (src/proj/excel2db.py), which replaces whole cell values,
* `datetimeToMinutes` (src/proj/utils/__init__.py) and the strict
  `%H:%M:%S` time parsing done with `pandas.to_datetime` / `strptime`.

Machine integers do not occur: all quantities are small non-negative counts
and minute offsets, embedded as `Nat`.  Fallible code (time parsing, dict
lookups that can raise `KeyError`, `IntervalTree.add` of a null interval,
which raises `ValueError`) is embedded with `Option` / `Except`.
-/

namespace CourseScheduling

/-- Occupancy of one meeting on one day, in minutes from midnight, as built
by `ScheduleDensity.compute`: the source constructs
`intervaltree.Interval(begin=startMinutes, end=endMinutes)`, half-open.
The fields stand for the `begin` / `end` attribute names of the source
(`end` is a reserved word here). -/
structure Interval where
  beginMin : Nat
  endMin : Nat
deriving DecidableEq

/-- Strict lexicographic order on `(begin, end)`.  The `Interval` objects
built by this program carry no data field, so equality of the
`(begin, end)` pair is full equality and this order is total on distinct
intervals; it is the search order of the modelled interval tree. -/
def ltIvb (a b : Interval) : Bool :=
  decide (a.beginMin < b.beginMin ∨ (a.beginMin = b.beginMin ∧ a.endMin < b.endMin))

/-- Modelled from the spec: the `DayIntervalIndex` implementation is the
external `intervaltree` library, whose code is not part of the sources of
this repository.  Following §4.3 of the spec ("an augmented self-balancing
interval container ... `insert` ... `queryPoint(minute)`: all stored
intervals whose `[begin, end)` contains `minute`; exact") and the
documented set semantics of the library (adding an `Interval` equal to a
stored one is a no-op), we model it as a binary search tree on intervals
ordered by `(begin, end)`, augmented in each node with the maximum interval
end of that subtree. -/
inductive ITree where
  | leaf : ITree
  | node (left : ITree) (ival : Interval) (maxEnd : Nat) (right : ITree) : ITree
deriving DecidableEq

/-- In-order listing of the stored intervals. -/
def ITree.toList : ITree → List Interval
  | .leaf => []
  | .node l iv _ r => l.toList ++ iv :: r.toList

/-- The cached maximum end of a subtree (0 for the empty tree). -/
def ITree.maxEndOf : ITree → Nat
  | .leaf => 0
  | .node _ _ me _ => me

/-- Well-formedness of the modelled tree: the cached `maxEnd` is correct
and the search-order invariant holds (everything on the left is strictly
below the node interval, everything on the right strictly above, in the
`(begin, end)` order). -/
def ITree.wf : ITree → Bool
  | .leaf => true
  | .node l iv me r =>
      l.wf && r.wf && (me == max iv.endMin (max l.maxEndOf r.maxEndOf))
        && l.toList.all (fun x => ltIvb x iv) && r.toList.all (fun x => ltIvb iv x)

/-- `IntervalTree.add`: insert one interval, ignoring an exact duplicate
(set semantics of the library). -/
def ITree.insert : ITree → Interval → ITree
  | .leaf, iv => .node .leaf iv iv.endMin .leaf
  | .node l j me r, iv =>
      if iv = j then .node l j me r
      else if ltIvb iv j then .node (l.insert iv) j (max me iv.endMin) r
      else .node l j (max me iv.endMin) (r.insert iv)

/-- `tree[minute]`: the point-stabbing query.  The left subtree is pruned
when its cached maximum end is at most the query point, the right subtree
when the begin of the node already exceeds the query point. -/
def ITree.query : ITree → Nat → List Interval
  | .leaf, _ => []
  | .node l j _ r, m =>
      (if m < l.maxEndOf then l.query m else [])
        ++ (if j.beginMin ≤ m ∧ m < j.endMin then [j] else [])
        ++ (if j.beginMin ≤ m then r.query m else [])

/-- A parsed `HH:MM:SS` wall-clock time.  `pandas.to_datetime` /
`datetime.strptime` with format `%H:%M:%S` yield a time with these three
components; comparing two parsed times compares all three. -/
structure TimeHMS where
  hour : Nat
  minute : Nat
  second : Nat
deriving DecidableEq

/-- Python `str.split(":")` on the character list of a string: split at
every colon, keeping empty fields. -/
def splitOnColon : List Char → List (List Char)
  | [] => [[]]
  | c :: rest =>
      let r := splitOnColon rest
      if c = ':' then [] :: r
      else
        match r with
        | [] => [[c]]
        | g :: gs => (c :: g) :: gs

/-- One `strptime` field (`%H`, `%M` or `%S`): one or two digit characters
whose value is within the bound of the field. -/
def parseField (cs : List Char) (bound : Nat) : Option Nat :=
  if cs.length = 0 ∨ 2 < cs.length then none
  else if cs.all Char.isDigit then
    let v := cs.foldl (fun a c => a * 10 + (c.toNat - 48)) 0
    if v ≤ bound then some v else none
  else none

/-- Strict `%H:%M:%S` parsing as done by
`pandas.to_datetime(arg, format="%H:%M:%S")` in `ScheduleDensity.compute`
and by `datetime.strptime(t, "%H:%M:%S")` in `create_interval_trees`:
exactly three colon-separated numeric fields, hour below 24, minute and
second below 60; anything else raises `ValueError`, embedded as `none`. -/
def parseHMS (s : String) : Option TimeHMS :=
  match splitOnColon s.toList with
  | [h, m, sec] =>
      match parseField h 23, parseField m 59, parseField sec 59 with
      | some hv, some mv, some sv => some ⟨hv, mv, sv⟩
      | _, _, _ => none
  | _ => none

/-- `datetimeToMinutes` (src/proj/utils/__init__.py) and `time_to_minutes`
(src/src/excelToDb.py): `dt.hour * 60 + dt.minute`; seconds are dropped. -/
def datetimeToMinutes (t : TimeHMS) : Nat :=
  t.hour * 60 + t.minute

/-- The per-day dictionary
`{day: IntervalTree() for day in ["M","T","W","R","F","S"]}` built by
`ScheduleDensity.compute` / `create_interval_trees`: exactly these six
keys. -/
structure DayDict where
  M : ITree
  T : ITree
  W : ITree
  R : ITree
  F : ITree
  S : ITree
deriving DecidableEq

/-- Whether a character is one of the six day keys of the dictionary. -/
def isDayKey (c : Char) : Bool :=
  c == 'M' || c == 'T' || c == 'W' || c == 'R' || c == 'F' || c == 'S'

/-- Dictionary lookup `dayIntervalTree[day]`; `none` is the Python
`KeyError`. -/
def DayDict.get? (d : DayDict) (c : Char) : Option ITree :=
  if c = 'M' then some d.M
  else if c = 'T' then some d.T
  else if c = 'W' then some d.W
  else if c = 'R' then some d.R
  else if c = 'F' then some d.F
  else if c = 'S' then some d.S
  else none

/-- Dictionary update of one of the six day entries (used after a
successful lookup, so the fall-through branch is unreachable in the
embedded code). -/
def DayDict.set (d : DayDict) (c : Char) (t : ITree) : DayDict :=
  if c = 'M' then { d with M := t }
  else if c = 'T' then { d with T := t }
  else if c = 'W' then { d with W := t }
  else if c = 'R' then { d with R := t }
  else if c = 'F' then { d with F := t }
  else if c = 'S' then { d with S := t }
  else d

/-- The six freshly constructed empty interval trees. -/
def emptyDayDict : DayDict :=
  ⟨.leaf, .leaf, .leaf, .leaf, .leaf, .leaf⟩

/-- One course-meeting row as consumed by the density computation: the
columns `TRAD MEETING PATTERN`, `CLASS START TIME` and `CLASS END TIME`. -/
structure Row where
  pattern : String
  startTime : String
  endTime : String
deriving DecidableEq

/-- The exceptions the embedded computation can raise: `invalidTime` is the
`ValueError` of `pandas.to_datetime` / `strptime` on an unparseable time,
`keyError` is the dict `KeyError` on a day token outside the six keys, and
`nullInterval` is the `ValueError` raised by `IntervalTree.add` on a zero-
or negative-length interval. -/
inductive ComputeErr where
  | invalidTime (s : String)
  | keyError (c : Char)
  | nullInterval
deriving DecidableEq

/-- The inner loop `for day in pattern: dayIntervalTree[day].add(interval)`
of `ScheduleDensity.compute` (src/proj/analytics/scheduleDensity.py,
lines 125-132): the dict lookup raises `KeyError` for an unknown token, and
`add` raises `ValueError` when the interval is null (`end <= begin`); no
exception handler surrounds this loop. -/
def addPatternDays (d : DayDict) (cs : List Char) (sm em : Nat) :
    Except ComputeErr DayDict :=
  match cs with
  | [] => .ok d
  | c :: rest =>
      match d.get? c with
      | none => .error (.keyError c)
      | some t =>
          if em ≤ sm then .error .nullInterval
          else addPatternDays (d.set c (t.insert ⟨sm, em⟩)) rest sm em

/-- One iteration of the row loop of `ScheduleDensity.compute`
(src/proj/analytics/scheduleDensity.py, lines 107-132): parse both times
strictly (raising on failure), skip the row when the parsed times are
equal, otherwise insert the minute interval into the tree of each pattern
day. -/
def projComputeRow (d : DayDict) (row : Row) : Except ComputeErr DayDict :=
  match parseHMS row.startTime with
  | none => .error (.invalidTime row.startTime)
  | some st =>
      match parseHMS row.endTime with
      | none => .error (.invalidTime row.endTime)
      | some et =>
          if st = et then .ok d
          else addPatternDays d row.pattern.toList
            (datetimeToMinutes st) (datetimeToMinutes et)

/-- The row loop of `ScheduleDensity.compute`: rows are processed in order
and the first uncaught exception aborts the whole computation. -/
def computeAux (d : DayDict) : List Row → Except ComputeErr DayDict
  | [] => .ok d
  | r :: rs =>
      match projComputeRow d r with
      | .ok d2 => computeAux d2 rs
      | .error e => .error e

/-- `ScheduleDensity.compute` (src/proj/analytics/scheduleDensity.py):
build the six interval trees from the course-schedule rows. -/
def projCompute (rows : List Row) : Except ComputeErr DayDict :=
  computeAux emptyDayDict rows

/-- The colour classification inlined in `ScheduleDensity.plot`
(src/proj/analytics/scheduleDensity.py, lines 185-196):
`color = "green"`, overridden to `"red"` when the overlap count reaches the
threshold, else to `"orange"` when the overlap set is nonempty. -/
def classifyColor (overlapCount overlapThreshold : Nat) : String :=
  if overlapThreshold ≤ overlapCount then "red"
  else if 0 < overlapCount then "orange"
  else "green"

/-- The day list `["M","T","W","R","F","S"]` of `ScheduleDensity.plot`. -/
def days0 : List Char := ['M', 'T', 'W', 'R', 'F', 'S']

/-- `days.reverse()` as performed at the top of `ScheduleDensity.plot`. -/
def plotDays : List Char := days0.reverse

/-- The grid times of `ScheduleDensity.plot`: `(hour, minute)` for hour in
`range(8, 19)` and minute in `range(0, 60, 5)`. -/
def times : List (Nat × Nat) :=
  (List.range' 8 11).flatMap (fun h => (List.range 12).map (fun i => (h, i * 5)))

/-- One density marker dict as appended by `ScheduleDensity.plot`:
`{"x": minutes, "y": days.index(day), "color": color, "size": size,
"overlaps": overlapCount}`. -/
structure Marker where
  x : Nat
  y : Nat
  color : String
  size : Nat
  overlaps : Nat
deriving DecidableEq

/-- The marker-building loops of `ScheduleDensity.plot`
(src/proj/analytics/scheduleDensity.py, lines 179-208): for every day of
the reversed day list and every grid time, query the tree of that day at
the minute offset of the time and classify the overlap count.  The dict
lookup `its[day]` always succeeds because `plotDays` holds only the six
keys of the dict built by `compute`; the `getD` default is unreachable. -/
def projPlot (its : DayDict) (overlapThreshold : Nat) : List Marker :=
  plotDays.flatMap (fun day =>
    times.map (fun tm =>
      let minutes := tm.1 * 60 + tm.2
      let overlaps := ((its.get? day).getD .leaf).query minutes
      let overlapCount := overlaps.length
      { x := minutes
        y := plotDays.indexOf day
        color := classifyColor overlapCount overlapThreshold
        size := 5 + 4 * overlapCount
        overlaps := overlapCount }))

/-- The full density pipeline as run by `ScheduleDensity.run`: `compute`
the trees, then build the marker list with `plot`.  Marker construction
reads no mutable state; the Streamlit session writes happen after the
marker list is complete. -/
def runDensity (rows : List Row) (overlapThreshold : Nat) :
    Except ComputeErr (List Marker) :=
  (projCompute rows).map (fun d => projPlot d overlapThreshold)

/-- The `(y, x)` grid positions, one per (day index, timeslot minute) pair
of the fixed 6-day, 132-slot window. -/
def gridPositions : List (Nat × Nat) :=
  (List.range 6).flatMap (fun yIdx => times.map (fun tm => (yIdx, tm.1 * 60 + tm.2)))

/-- The inner loop of `create_interval_trees` (src/src/excelToDb.py,
lines 179-185): each `day_trees[day].add(interval)` is wrapped in a bare
try/except, so both the `KeyError` of an unknown day token and the
`ValueError` of a null interval are swallowed, and only the contribution
of that token is dropped. -/
def exAddDays (d : DayDict) (cs : List Char) (sm em : Nat) : DayDict :=
  match cs with
  | [] => d
  | c :: rest =>
      match d.get? c with
      | none => exAddDays d rest sm em
      | some t =>
          if em ≤ sm then exAddDays d rest sm em
          else exAddDays (d.set c (t.insert ⟨sm, em⟩)) rest sm em

/-- One iteration of the row loop of `create_interval_trees`
(src/src/excelToDb.py, lines 168-185): the raw start/end strings are
compared first (`if start == end: continue`), then parsed with `strptime`
(raising on failure, with no handler), then the per-token insertions run
under the bare try/except. -/
def exComputeRow (d : DayDict) (row : Row) : Except ComputeErr DayDict :=
  if row.startTime = row.endTime then .ok d
  else
    match parseHMS row.startTime with
    | none => .error (.invalidTime row.startTime)
    | some st =>
        match parseHMS row.endTime with
        | none => .error (.invalidTime row.endTime)
        | some et =>
            .ok (exAddDays d row.pattern.toList
              (datetimeToMinutes st) (datetimeToMinutes et))

/-- The row loop of `create_interval_trees`. -/
def exComputeAux (d : DayDict) : List Row → Except ComputeErr DayDict
  | [] => .ok d
  | r :: rs =>
      match exComputeRow d r with
      | .ok d2 => exComputeAux d2 rs
      | .error e => .error e

/-- `create_interval_trees` (src/src/excelToDb.py): the older variant of
the tree-building phase. -/
def computeTreesEx (rows : List Row) : Except ComputeErr DayDict :=
  exComputeAux emptyDayDict rows

/-- A row with all `'X'` (Sunday placeholder) tokens removed from its
pattern; start and end times unchanged. -/
def stripXRow (r : Row) : Row :=
  { r with pattern := String.mk (r.pattern.toList.filter (fun c => !(c == 'X'))) }

/-- A row with every token outside the six day keys removed from its
pattern; start and end times unchanged. -/
def stripUnknownRow (r : Row) : Row :=
  { r with pattern := String.mk (r.pattern.toList.filter isDayKey) }

/-- Python `str.replace(pat, rep)` on character lists: replace every
non-overlapping occurrence of `pat`, scanning left to right and resuming
after the replacement.  The fuel argument (instantiated with the string
length) only serves structural termination: every step consumes at least
one character of the remaining input, so the fuel never runs out. -/
def pyReplaceList (pat rep : List Char) : Nat → List Char → List Char
  | 0, s => s
  | _ + 1, [] => []
  | fuel + 1, c :: rest =>
      if pat.isPrefixOf (c :: rest) && !pat.isEmpty then
        rep ++ pyReplaceList pat rep fuel (rest.drop (pat.length - 1))
      else c :: pyReplaceList pat rep fuel rest

/-- Python `str.replace` on strings. -/
def pyReplace (s pat rep : String) : String :=
  String.mk (pyReplaceList pat.toList rep.toList s.toList.length s.toList)

/-- `traditional_meeting_pattern` (src/src/excelToDb.py, lines 78-87) and
`traditionalMeetingPattern` (src/src/app.py, lines 51-59): for a truthy
(nonempty) pattern,
`meeting_pattern.replace("TR", "R").replace("SA", "S").replace("SU", "X")`
with Python substring-replace semantics; otherwise the empty string. -/
def traditionalMeetingPattern (meeting_pattern : String) : String :=
  if meeting_pattern = "" then ""
  else pyReplace (pyReplace (pyReplace meeting_pattern "TR" "R") "SA" "S") "SU" "X"

/-- One cell of the pandas `Series.replace` chain used by `readExcelToDB`
(src/proj/excel2db.py, lines 71-76): without `regex=True`,
`df["MEETING PATTERN"].replace("TR", "R")` replaces only elements that are
wholly equal to `"TR"`, not substrings. -/
def seriesReplaceCell (cell pat rep : String) : String :=
  if cell = pat then rep else cell

/-- The normalization a `MEETING PATTERN` cell undergoes in `readExcelToDB`
(src/proj/excel2db.py): the
`.replace("TR", "R").replace("SA", "S").replace("SU", "X")` chain with
pandas whole-value semantics. -/
def tradPatternProj (cell : String) : String :=
  seriesReplaceCell (seriesReplaceCell (seriesReplaceCell cell "TR" "R") "SA" "S") "SU" "X"

/-- Example row: a Monday 09:00-10:00 meeting. -/
def rowMon0900 : Row := ⟨"M", "09:00:00", "10:00:00"⟩

/-- Example row: a Monday 09:30-10:30 meeting. -/
def rowMon0930 : Row := ⟨"M", "09:30:00", "10:30:00"⟩

/-- The lexicographic order is irreflexive. -/
theorem ltIvb_irrefl (a : Interval) : ltIvb a a = false := by
  simp [ltIvb]

/-- The lexicographic order is asymmetric. -/
theorem ltIvb_asymm {a b : Interval} (h : ltIvb a b = true) : ltIvb b a = false := by
  simp [ltIvb] at h ⊢
  omega

/-- Unfolding of the well-formedness predicate at a node. -/
theorem ITree.wf_node {l r : ITree} {j : Interval} {me : Nat} :
    (ITree.node l j me r).wf = true ↔
      l.wf = true ∧ r.wf = true ∧ me = max j.endMin (max l.maxEndOf r.maxEndOf)
        ∧ (∀ x ∈ l.toList, ltIvb x j = true) ∧ (∀ x ∈ r.toList, ltIvb j x = true) := by
  simp [ITree.wf, List.all_eq_true, and_assoc]

/-- In a well-formed tree, every stored interval ends no later than the
cached maximum end; this is what justifies pruning a subtree whose maximum
end is at most the query point. -/
theorem ITree.endMin_le_maxEnd : ∀ (t : ITree), t.wf = true →
    ∀ x ∈ t.toList, x.endMin ≤ t.maxEndOf := by
  intro t
  induction t with
  | leaf => intro _ x hx; simp [ITree.toList] at hx
  | node l j me r ihl ihr =>
      intro hwf x hx
      rw [ITree.wf_node] at hwf
      obtain ⟨hl, hr, hme, _, _⟩ := hwf
      simp only [ITree.toList, List.mem_append, List.mem_cons] at hx
      show x.endMin ≤ me
      rcases hx with hx | rfl | hx
      · have hx2 := ihl hl x hx
        omega
      · omega
      · have hx2 := ihr hr x hx
        omega

/-- On a well-formed tree the pruned query returns, in order, exactly the
stored intervals whose half-open span contains the query minute. -/
theorem ITree.query_eq_filter : ∀ (t : ITree) (m : Nat), t.wf = true →
    t.query m = t.toList.filter (fun x => decide (x.beginMin ≤ m ∧ m < x.endMin)) := by
  intro t
  induction t with
  | leaf => intro m _; rfl
  | node l j me r ihl ihr =>
      intro m hwf
      rw [ITree.wf_node] at hwf
      obtain ⟨hl, hr, hme, hleft, hright⟩ := hwf
      simp only [ITree.query, ITree.toList, List.filter_append, List.filter_cons]
      rw [List.append_assoc]
      congr 1
      · by_cases hm : m < l.maxEndOf
        · rw [if_pos hm, ihl m hl]
        · rw [if_neg hm]
          symm
          refine List.filter_eq_nil_iff.mpr ?_
          intro x hx
          have hxe := ITree.endMin_le_maxEnd l hl x hx
          simp
          omega
      · by_cases hb : j.beginMin ≤ m
        · by_cases hj : m < j.endMin
          · simp [hb, hj, ihr m hr]
          · simp [hb, hj, ihr m hr]
        · simp [hb]
          intro a ha hba
          have hja := hright a ha
          simp [ltIvb] at hja
          omega

/-- Inserting an interval already stored in a well-formed tree leaves the
tree unchanged: the duplicate is met on the search path and ignored, and
the cached maximum ends absorb the repeated end value. -/
theorem ITree.insert_mem_eq : ∀ (t : ITree) (iv : Interval), t.wf = true →
    iv ∈ t.toList → t.insert iv = t := by
  intro t iv
  induction t with
  | leaf => intro _ hmem; simp [ITree.toList] at hmem
  | node l j me r ihl ihr =>
      intro hwf hmem
      rw [ITree.wf_node] at hwf
      obtain ⟨hl, hr, hme, hleft, hright⟩ := hwf
      simp only [ITree.toList, List.mem_append, List.mem_cons] at hmem
      rcases hmem with hmem | rfl | hmem
      · have hlt : ltIvb iv j = true := hleft iv hmem
        have hne : iv ≠ j := by
          intro hEq
          subst hEq
          rw [ltIvb_irrefl] at hlt
          exact Bool.noConfusion hlt
        have hle : iv.endMin ≤ me := by
          have hx2 := ITree.endMin_le_maxEnd l hl iv hmem
          omega
        simp [ITree.insert, hne, hlt, ihl hl hmem]
        omega
      · simp [ITree.insert]
      · have hgt : ltIvb j iv = true := hright iv hmem
        have hne : iv ≠ j := by
          intro hEq
          subst hEq
          rw [ltIvb_irrefl] at hgt
          exact Bool.noConfusion hgt
        have hflt : ltIvb iv j = false := ltIvb_asymm hgt
        have hle : iv.endMin ≤ me := by
          have hx2 := ITree.endMin_le_maxEnd r hr iv hmem
          omega
        simp [ITree.insert, hne, hflt, ihr hr hmem]
        omega

/-- The row loop processes an appended batch by processing the first part
and, if no exception was raised, continuing with the second. -/
theorem computeAux_append (l1 l2 : List Row) (d : DayDict) :
    computeAux d (l1 ++ l2) = (computeAux d l1).bind (fun d2 => computeAux d2 l2) := by
  induction l1 generalizing d with
  | nil => rfl
  | cons r rs ih =>
      simp only [List.cons_append, computeAux]
      cases projComputeRow d r with
      | ok d2 => exact ih d2
      | error e => rfl

/-- Looking up a character that is not one of the six day keys raises
`KeyError` (returns `none`), whatever the dictionary contents. -/
theorem DayDict.get?_eq_none {c : Char} (h : isDayKey c = false) (d : DayDict) :
    d.get? c = none := by
  simp only [isDayKey, Bool.or_eq_false_iff, beq_eq_false_iff_ne, ne_eq] at h
  obtain ⟨⟨⟨⟨⟨h1, h2⟩, h3⟩, h4⟩, h5⟩, h6⟩ := h
  simp [DayDict.get?, h1, h2, h3, h4, h5, h6]

/-- In the try/except variant, tokens whose lookup fails contribute
nothing, so removing them from the pattern does not change the result. -/
theorem exAddDays_filter (p : Char → Bool) (hp : ∀ c, p c = false → isDayKey c = false) :
    ∀ (cs : List Char) (d : DayDict) (sm em : Nat),
      exAddDays d (cs.filter p) sm em = exAddDays d cs sm em := by
  intro cs
  induction cs with
  | nil => intro d sm em; rfl
  | cons c rest ih =>
      intro d sm em
      by_cases hc : p c = true
      · rw [show (c :: rest).filter p = c :: rest.filter p by simp [List.filter_cons, hc]]
        cases hg : d.get? c with
        | none =>
            simp only [exAddDays, hg]
            exact ih d sm em
        | some t =>
            simp only [exAddDays, hg]
            by_cases hnull : em ≤ sm
            · rw [if_pos hnull, if_pos hnull]
              exact ih d sm em
            · rw [if_neg hnull, if_neg hnull]
              exact ih _ sm em
      · have hc2 : p c = false := by
          cases hpc : p c
          · rfl
          · exact absurd hpc hc
        rw [show (c :: rest).filter p = rest.filter p by simp [List.filter_cons, hc2]]
        have hkey := DayDict.get?_eq_none (hp c hc2) d
        simp only [exAddDays, hkey]
        exact ih d sm em

/-- Row-level version of `exAddDays_filter`: filtering unknown tokens out
of one pattern does not change the try/except row step. -/
theorem exComputeRow_filter (p : Char → Bool) (hp : ∀ c, p c = false → isDayKey c = false)
    (d : DayDict) (r : Row) :
    exComputeRow d { r with pattern := String.mk (r.pattern.toList.filter p) }
      = exComputeRow d r := by
  unfold exComputeRow
  dsimp only
  by_cases h : r.startTime = r.endTime
  · simp [h]
  · simp only [if_neg h]
    cases parseHMS r.startTime with
    | none => rfl
    | some st =>
        cases parseHMS r.endTime with
        | none => rfl
        | some et =>
            dsimp only [String.toList]
            exact congrArg Except.ok (exAddDays_filter p hp r.pattern.toList d _ _)

/-- Batch-level version: filtering unknown tokens out of every pattern does
not change the trees built by the try/except variant. -/
theorem exComputeAux_strip (p : Char → Bool) (hp : ∀ c, p c = false → isDayKey c = false) :
    ∀ (rows : List Row) (d : DayDict),
      exComputeAux d (rows.map
          (fun r => { r with pattern := String.mk (r.pattern.toList.filter p) }))
        = exComputeAux d rows := by
  intro rows
  induction rows with
  | nil => intro d; rfl
  | cons r rs ih =>
      intro d
      simp only [List.map_cons, exComputeAux, exComputeRow_filter p hp]
      cases exComputeRow d r with
      | ok d2 => exact ih d2
      | error e => rfl

/-- C1: for every well-formed day index and every minute, the point query
returns exactly the stored intervals whose half-open span `[begin, end)`
contains the minute — an interval is a member of the query result iff it is
stored and `begin <= m < end` (so it is included at `m = begin` and
excluded at `m = end`), none is missed, and no duplicate is introduced. -/
theorem queryPoint_exact (t : ITree) (m : Nat) (h : t.wf = true) :
    (∀ iv : Interval, iv ∈ t.query m ↔
        iv ∈ t.toList ∧ iv.beginMin ≤ m ∧ m < iv.endMin)
      ∧ (t.toList.Nodup → (t.query m).Nodup) := by
  constructor
  · intro iv
    rw [ITree.query_eq_filter t m h]
    simp [List.mem_filter]
  · intro hnd
    rw [ITree.query_eq_filter t m h]
    exact hnd.filter _

/-- Witness for C1 at the two-interval Monday index and minute 580. -/
theorem queryPoint_exact_witness :
    (∀ iv : Interval,
        iv ∈ ((ITree.leaf.insert ⟨540, 600⟩).insert ⟨570, 630⟩).query 580 ↔
          iv ∈ ((ITree.leaf.insert ⟨540, 600⟩).insert ⟨570, 630⟩).toList ∧
            iv.beginMin ≤ 580 ∧ 580 < iv.endMin)
      ∧ (((ITree.leaf.insert ⟨540, 600⟩).insert ⟨570, 630⟩).toList.Nodup →
          (((ITree.leaf.insert ⟨540, 600⟩).insert ⟨570, 630⟩).query 580).Nodup) :=
  queryPoint_exact ((ITree.leaf.insert ⟨540, 600⟩).insert ⟨570, 630⟩) 580 (by decide)

set_option maxRecDepth 1000000 in
/-- C2: for every positive severity threshold the marker colour is green at
overlap count 0, orange for counts strictly between 0 and the threshold,
and red once the count reaches the threshold; and in the two-Monday-meeting
scenario (540, 600) and (570, 630) with default threshold 2, the grid point
at minute 580 reports count 2 and red, minute 610 count 1 and orange, and
minute 700 count 0 and green. -/
theorem severity_classification :
    (∀ overlapCount overlapThreshold : Nat, 0 < overlapThreshold →
        classifyColor overlapCount overlapThreshold =
          if overlapCount = 0 then "green"
          else if overlapCount < overlapThreshold then "orange"
          else "red")
      ∧ (Marker.mk 580 5 "red" 13 2 ∈ (runDensity [rowMon0900, rowMon0930] 2).toOption.getD []
          ∧ Marker.mk 610 5 "orange" 9 1 ∈ (runDensity [rowMon0900, rowMon0930] 2).toOption.getD []
          ∧ Marker.mk 700 5 "green" 5 0 ∈ (runDensity [rowMon0900, rowMon0930] 2).toOption.getD []) := by
  constructor
  · intro c T hT
    unfold classifyColor
    split_ifs <;> first | rfl | omega
  · decide

/-- Witness for C2 at counts 0, 1 and 2 with the default threshold 2. -/
theorem severity_classification_witness :
    classifyColor 0 2 = "green" ∧ classifyColor 1 2 = "orange" ∧ classifyColor 2 2 = "red" :=
  ⟨(severity_classification.1 0 2 (by decide)).trans (by decide),
    (severity_classification.1 1 2 (by decide)).trans (by decide),
    (severity_classification.1 2 2 (by decide)).trans (by decide)⟩

set_option maxRecDepth 1000000 in
set_option maxHeartbeats 4000000 in
/-- C3: for every dictionary of six day indices and every threshold, the
marker list has exactly one marker per (day, 5-minute timeslot) cell of the
fixed 6-day, 132-slot window — 792 markers, whose `(y, x)` positions are
exactly the full duplicate-free grid, so each position recovers its cell. -/
theorem grid_shape_792 (d : DayDict) (overlapThreshold : Nat) :
    (projPlot d overlapThreshold).map (fun mk => (mk.y, mk.x)) = gridPositions
      ∧ gridPositions.Nodup
      ∧ (projPlot d overlapThreshold).length = 792 := by
  refine ⟨rfl, ?_, rfl⟩
  have h : gridPositions = (List.range 6).product (times.map (fun tm => tm.1 * 60 + tm.2)) := by
    simp [gridPositions, List.product, List.map_map]
    rfl
  rw [h]
  exact List.Nodup.product (List.nodup_range 6) (by decide)

/-- C4: a row whose parsed start time equals its parsed end time is skipped
by the `startTime == endTime` guard of `ScheduleDensity.compute` before any
insertion, so it contributes no interval to any day index: the computation
on a batch containing such a row equals the computation without it. -/
theorem zero_duration_skipped (pre post : List Row) (r : Row) (st et : TimeHMS)
    (h1 : parseHMS r.startTime = some st) (h2 : parseHMS r.endTime = some et)
    (heq : st = et) :
    projCompute (pre ++ r :: post) = projCompute (pre ++ post) := by
  subst heq
  unfold projCompute
  rw [computeAux_append, computeAux_append]
  cases hc : computeAux emptyDayDict pre with
  | error e => rfl
  | ok d =>
      show computeAux d (r :: post) = computeAux d post
      simp [computeAux, projComputeRow, h1, h2]

/-- Witness for C4: a zero-duration MWF row is a complete no-op. -/
theorem zero_duration_skipped_witness :
    projCompute [Row.mk "MWF" "09:00:00" "09:00:00"] = projCompute [] :=
  zero_duration_skipped [] [] (Row.mk "MWF" "09:00:00" "09:00:00") ⟨9, 0, 0⟩ ⟨9, 0, 0⟩ rfl rfl rfl

/-- C5: the two normalization variants diverge.  The pandas
`Series.replace` chain of `readExcelToDB` (src/proj/excel2db.py) leaves the
composite cell "MWF TR" unchanged, because without `regex=True` pandas
replaces only whole cell values; the `str.replace` implementations
(`traditional_meeting_pattern`, `traditionalMeetingPattern`) rewrite every
occurrence, mapping "MWF TR" to "MWF R" and "SA SU" to "S X" exactly as
their docstring examples state, and both agree on the exact cell "TR". -/
theorem tr_replace_divergence :
    tradPatternProj "MWF TR" = "MWF TR"
      ∧ traditionalMeetingPattern "MWF TR" = "MWF R"
      ∧ traditionalMeetingPattern "SA SU" = "S X"
      ∧ tradPatternProj "TR" = "R" :=
  ⟨rfl, rfl, rfl, rfl⟩

/-- C6 counterexample: in `ScheduleDensity.compute`
(src/proj/analytics/scheduleDensity.py) a meeting whose normalized pattern
contains the Sunday placeholder token X does not complete without error —
the dict lookup `dayIntervalTree["X"]` raises `KeyError` and the whole
computation aborts. -/
theorem pattern_X_keyError :
    projCompute [Row.mk "MX" "09:00:00" "10:00:00"] = .error (.keyError 'X') := rfl

/-- C6 amended: in the `create_interval_trees` variant
(src/src/excelToDb.py) the bare try/except swallows the failed insertion,
so X tokens insert nothing into any of the six day indices and the other
day tokens of the meeting still contribute normally: removing every X from
the patterns leaves the computed trees unchanged. -/
theorem pattern_X_stripped_ex (rows : List Row) :
    computeTreesEx (rows.map stripXRow) = computeTreesEx rows :=
  exComputeAux_strip (fun c => !(c == 'X'))
    (by
      intro c h
      have hcx : c = 'X' := by simpa using h
      subst hcx
      rfl)
    rows emptyDayDict

/-- C7 counterexample: no `MalformedPatternError` exists anywhere in the
sources; in `ScheduleDensity.compute` an unrecognized character such as Z
raises a dict `KeyError` that aborts the whole batch, so no markers are
produced for the other, valid meetings. -/
theorem pattern_Z_keyError_fatal :
    projCompute [rowMon0900, Row.mk "Z" "09:00:00" "10:00:00"] = .error (.keyError 'Z') := rfl

/-- C7 amended: in the `create_interval_trees` variant the failed insertion
of an unrecognized token is silently swallowed by the bare try/except, so
only the contribution of that character is dropped and every other meeting
still contributes: removing all unknown tokens from the patterns leaves the
computed trees unchanged. -/
theorem unknown_tokens_stripped_ex (rows : List Row) :
    computeTreesEx (rows.map stripUnknownRow) = computeTreesEx rows :=
  exComputeAux_strip isDayKey (fun _ h => h) rows emptyDayDict

/-- C8 counterexample: an unparseable start time — and equally an
unparseable end time — makes `ScheduleDensity.compute` raise immediately:
the batch result is the `ValueError` of the time parse, no diagnostics list
is collected, and no markers are produced for the valid first row. -/
theorem bad_time_aborts :
    projCompute [rowMon0900, Row.mk "M" "banana" "10:00:00"]
        = .error (.invalidTime "banana")
      ∧ projCompute [rowMon0900, Row.mk "M" "09:00:00" "banana"]
        = .error (.invalidTime "banana") :=
  ⟨rfl, rfl⟩

/-- C8 amended: for any batch that processes cleanly up to a row whose
start or end time fails to parse, the whole computation aborts with the
parse error of that row, whatever rows follow; the start time is parsed
first, so when both fail the error names the start time. -/
theorem bad_time_first_failure (pre post : List Row) (r : Row) (d : DayDict)
    (hpre : computeAux emptyDayDict pre = .ok d)
    (hbad : parseHMS r.startTime = none ∨ parseHMS r.endTime = none) :
    projCompute (pre ++ r :: post) =
      .error (.invalidTime
        (if parseHMS r.startTime = none then r.startTime else r.endTime)) := by
  unfold projCompute
  rw [computeAux_append, hpre]
  show computeAux d (r :: post) = _
  cases hs : parseHMS r.startTime with
  | none => simp [computeAux, projComputeRow, hs]
  | some st =>
      have he : parseHMS r.endTime = none := by
        rcases hbad with hbad | hbad
        · rw [hs] at hbad
          exact absurd hbad (Option.some_ne_none st)
        · exact hbad
      simp [computeAux, projComputeRow, hs, he]

/-- Witness for the amended C8 with an empty prefix and a row whose end
time is the unparseable one. -/
theorem bad_time_first_failure_witness :
    projCompute [Row.mk "M" "09:00:00" "banana"] = .error (.invalidTime "banana") :=
  bad_time_first_failure [] [] (Row.mk "M" "09:00:00" "banana") emptyDayDict rfl
    (Or.inr rfl)

/-- C9: the density pipeline is a pure function of the input row sequence
and the threshold — two runs on identical inputs yield identical marker
lists, with the same positions, counts, colours and sizes in the same
order. -/
theorem density_deterministic (rows1 rows2 : List Row) (overlapThreshold : Nat)
    (h : rows1 = rows2) :
    runDensity rows1 overlapThreshold = runDensity rows2 overlapThreshold := by
  rw [h]

/-- Witness for C9 on the two-meeting Monday scenario. -/
theorem density_deterministic_witness :
    runDensity [rowMon0900, rowMon0930] 2 = runDensity [rowMon0900, rowMon0930] 2 :=
  density_deterministic [rowMon0900, rowMon0930] [rowMon0900, rowMon0930] 2 rfl

/-- C10: inserting into a well-formed day index an interval whose
`(begin, end)` pair equals one already stored leaves the index unchanged
(set semantics), so a duplicate meeting is counted as a single overlap at
every query point rather than two. -/
theorem insert_idempotent (t : ITree) (iv : Interval) (hwf : t.wf = true)
    (hmem : iv ∈ t.toList) :
    t.insert iv = t ∧ ∀ m, ((t.insert iv).query m).length = (t.query m).length := by
  have h := ITree.insert_mem_eq t iv hwf hmem
  exact ⟨h, fun m => by rw [h]⟩

/-- Witness for C10: re-adding the Monday 09:00-10:00 interval is a no-op. -/
theorem insert_idempotent_witness :
    ((ITree.leaf.insert ⟨540, 600⟩).insert ⟨540, 600⟩ = ITree.leaf.insert ⟨540, 600⟩)
      ∧ ∀ m, (((ITree.leaf.insert ⟨540, 600⟩).insert ⟨540, 600⟩).query m).length
          = ((ITree.leaf.insert ⟨540, 600⟩).query m).length :=
  insert_idempotent (ITree.leaf.insert ⟨540, 600⟩) ⟨540, 600⟩ (by decide) (by decide)

end CourseScheduling
